import Mathlib

/-!
Verification of the station broadcast orchestrator.

This file gives a shallow embedding of the orchestrator found in
`src/audio-streamer/src/index.ts` (port allocation, the Auto DJ playback
supervisor, the live-source gatekeeper) and of the state reconciler found in
`src/unnamed/part_000` (`syncStreamStatus`, `handleStreamStart`,
`handleStreamEnd`), together with theorems settling the specification's
claims about them.

Conventions: the in-memory JavaScript `Map`s become association lists, the
database tables become lists of row structures, timestamps become `Nat`
parameters threaded into the operations, and each exported operation of the
source becomes a pure state-transformer.
-/

/-! ## Part A: the orchestrator (`src/audio-streamer/src/index.ts`) -/

/-- Row of the `audio_stations` table, restricted to the columns the
orchestrator's broadcast logic reads.  `tracks` is the ordered track list
that the playlist query of `startAutoDJ` resolves for the station. -/
structure Station where
  id : String
  mountPoint : String
  sourcePassword : String
  autoDjEnabled : Bool
  isActive : Bool
  tracks : List String
deriving DecidableEq, Repr

/-- Row of the `station_djs` table, restricted to the columns read by the
DJ authentication query. -/
structure DJRow where
  id : String
  stationId : String
  streamPassword : String
  isActive : Bool
  canStream : Bool
deriving DecidableEq, Repr

/-- Row of the `now_playing` table (one row per station). -/
structure NowPlayingRow where
  stationId : String
  trackId : Option String
  djId : Option String
  isLive : Bool
deriving DecidableEq, Repr

/-- The orchestrator's state: the database tables it consults plus the three
process-wide registries of `index.ts` — `autoDJProcesses` (station ids that
hold a spawned ffmpeg handle), `liveDJConnections` (mount →
(stationId, djId)), and the set of station ids with a pending
`setTimeout(() => startAutoDJ(id))` scheduled by the disconnect handler. -/
structure OrchState where
  stations : List Station
  djs : List DJRow
  autoDJProcesses : List String
  liveDJConnections : List (String × String × String)
  pendingRestarts : List String
  nowPlaying : List NowPlayingRow
deriving DecidableEq, Repr

/-- JavaScript `s.replace('/', '')`: remove the first occurrence of the
character, used on the presented mount in the DJ authentication query. -/
def removeFirstSlashAux : List Char → List Char
  | [] => []
  | c :: cs => if c == '/' then cs else c :: removeFirstSlashAux cs

/-- String form of `removeFirstSlashAux`. -/
def removeFirstSlash (s : String) : String :=
  ⟨removeFirstSlashAux s.toList⟩

/-- Strip one leading slash from a character list. -/
def mountKeyAux : List Char → List Char
  | [] => []
  | c :: cs => if c == '/' then cs else c :: cs

/-- JavaScript `mount?.replace(/^\//, '') || ''` of the Icecast source
authentication endpoint: strip one leading slash; an absent mount yields
the empty string. -/
def mountKey : Option String → String
  | none => ""
  | some s => ⟨mountKeyAux s.toList⟩

/-- Upsert of the `now_playing` row performed by `startAutoDJ`
(`ON CONFLICT (station_id) DO UPDATE SET track_id, is_live = false`;
note the conflict arm does not touch `dj_id`). -/
def upsertNowPlayingTrack (np : List NowPlayingRow) (sid tid : String) :
    List NowPlayingRow :=
  if np.any (fun r => r.stationId == sid) then
    np.map (fun r =>
      if r.stationId == sid then { r with trackId := some tid, isLive := false }
      else r)
  else
    np ++ [{ stationId := sid, trackId := some tid, djId := none, isLive := false }]

/-- Upsert of the `now_playing` row performed by the DJ authentication
handler (`ON CONFLICT ... SET dj_id, is_live = true, track_id = NULL`). -/
def upsertNowPlayingDJ (np : List NowPlayingRow) (sid djId : String) :
    List NowPlayingRow :=
  if np.any (fun r => r.stationId == sid) then
    np.map (fun r =>
      if r.stationId == sid then
        { r with djId := some djId, isLive := true, trackId := none }
      else r)
  else
    np ++ [{ stationId := sid, trackId := none, djId := some djId, isLive := true }]

/-- `Map.set` on the `liveDJConnections` registry. -/
def upsertConn (conns : List (String × String × String))
    (mount sid djId : String) : List (String × String × String) :=
  if conns.any (fun c => c.1 == mount) then
    conns.map (fun c => if c.1 == mount then (mount, sid, djId) else c)
  else conns ++ [(mount, sid, djId)]

/-- `startAutoDJ(stationId)` of `index.ts`: no-op when a process handle is
already registered, when the station is unknown, when `auto_dj_enabled` is
false, or when the resolved playlist is empty; otherwise it spawns the
process, registers the handle and upserts `now_playing` with the first
track.  It performs no check of `liveDJConnections`. -/
def startAutoDJ (st : OrchState) (stationId : String) : OrchState :=
  if st.autoDJProcesses.contains stationId then st
  else
    match st.stations.find? (fun s => s.id == stationId) with
    | none => st
    | some s =>
      if !s.autoDjEnabled then st
      else
        match s.tracks with
        | [] => st
        | t :: _ =>
          { st with
            autoDJProcesses := st.autoDJProcesses ++ [stationId],
            nowPlaying := upsertNowPlayingTrack st.nowPlaying stationId t }

/-- `stopAutoDJ(stationId)` of `index.ts`: kill the process and remove the
handle when present, otherwise a no-op. -/
def stopAutoDJ (st : OrchState) (stationId : String) : OrchState :=
  if st.autoDJProcesses.contains stationId then
    { st with autoDJProcesses := st.autoDJProcesses.filter (fun x => x != stationId) }
  else st

/-- The SQL query of `POST /api/audio/auth/dj`: `station_djs` joined with
`audio_stations` on `station_id`, filtered on the de-slashed mount, the
presented password, `is_active` and `can_stream`; `rows[0]` becomes
`head?`. -/
def djAuthQuery (st : OrchState) (mount pass : String) : Option (DJRow × Station) :=
  (st.djs.filterMap (fun d =>
    match st.stations.find? (fun s => s.id == d.stationId) with
    | none => none
    | some s =>
      if s.mountPoint == removeFirstSlash mount && d.streamPassword == pass &&
          d.isActive && d.canStream then
        some (d, s)
      else none)).head?

/-- `POST /api/audio/auth/dj` of `index.ts`.  `globalPass` is the
`ICECAST_SOURCE_PASSWORD` environment constant.  Returns the new state and
whether the connection was accepted (HTTP 200 `OK` versus 401
`Unauthorized`).  When no DJ row matches, the global source password is
accepted with no state change (the Auto DJ's own connection); when a DJ row
matches, `stopAutoDJ` is issued only under the station's `auto_dj_enabled`
flag, then the connection is recorded and `now_playing` is upserted. -/
def djAuth (globalPass : String) (st : OrchState) (mount pass : String) :
    OrchState × Bool :=
  match djAuthQuery st mount pass with
  | none => if pass == globalPass then (st, true) else (st, false)
  | some (d, s) =>
    let st1 := if s.autoDjEnabled then stopAutoDJ st d.stationId else st
    let st2 := { st1 with
      liveDJConnections := upsertConn st1.liveDJConnections mount d.stationId d.id }
    ({ st2 with nowPlaying := upsertNowPlayingDJ st2.nowPlaying d.stationId d.id },
     true)

/-- `POST /api/audio/auth/dj-disconnect` of `index.ts`: when a connection is
registered for the mount, remove it, delete the station's `now_playing`
row, and — when the station's `auto_dj_enabled` flag reads true — schedule
`startAutoDJ` after a debounce delay (recorded here in
`pendingRestarts`). -/
def djDisconnect (st : OrchState) (mount : String) : OrchState :=
  match st.liveDJConnections.find? (fun c => c.1 == mount) with
  | none => st
  | some c =>
    let st1 := { st with
      liveDJConnections := st.liveDJConnections.filter (fun x => x.1 != mount),
      nowPlaying := st.nowPlaying.filter (fun r => r.stationId != c.2.1) }
    match st1.stations.find? (fun s => s.id == c.2.1) with
    | none => st1
    | some s =>
      if s.autoDjEnabled then
        { st1 with pendingRestarts := st1.pendingRestarts ++ [c.2.1] }
      else st1

/-- Firing of the timer scheduled by the disconnect handler: the callback is
exactly `startAutoDJ(stationId)` — no further check precedes it. -/
def fireRestart (st : OrchState) (stationId : String) : OrchState :=
  if st.pendingRestarts.contains stationId then
    startAutoDJ { st with pendingRestarts := st.pendingRestarts.erase stationId }
      stationId
  else st

/-- `POST /api/audio/stations/:id/stop` of `index.ts`: stop the Auto DJ,
kill the Icecast mount (external side effect), drop every live connection
recorded for the station, and delete its `now_playing` row. -/
def broadcastStop (st : OrchState) (stationId : String) : OrchState :=
  let st1 := stopAutoDJ st stationId
  { st1 with
    liveDJConnections := st1.liveDJConnections.filter (fun c => c.2.1 != stationId),
    nowPlaying := st1.nowPlaying.filter (fun r => r.stationId != stationId) }

/-- `PUT /api/audio/stations/:id` of `index.ts`, restricted to the columns
the broadcast logic reads: `auto_dj_enabled` and `is_active` are updated
through `COALESCE` with the submitted values; the endpoint never touches
the process registry. -/
def updateStation (st : OrchState) (stationId : String)
    (autoDjEnabled isActive : Option Bool) : OrchState :=
  { st with stations := st.stations.map (fun s =>
      if s.id == stationId then
        { s with
          autoDjEnabled := autoDjEnabled.getD s.autoDjEnabled,
          isActive := isActive.getD s.isActive }
      else s) }

/-- One step of the orchestrator: exactly the operations named by the
mutual-exclusion claim — `startAutoDJ` (start endpoint, startup pass, or a
fired restart timer), `stopAutoDJ`, a live-connect authentication, a live
disconnect, and the broadcast-stop endpoint. -/
inductive Step : OrchState → OrchState → Prop
  | start (st : OrchState) (sid : String) : Step st (startAutoDJ st sid)
  | stop (st : OrchState) (sid : String) : Step st (stopAutoDJ st sid)
  | connect (st : OrchState) (gp mount pass : String) :
      Step st (djAuth gp st mount pass).1
  | disconnect (st : OrchState) (mount : String) : Step st (djDisconnect st mount)
  | restartTimer (st : OrchState) (sid : String) : Step st (fireRestart st sid)
  | broadcastStopStep (st : OrchState) (sid : String) :
      Step st (broadcastStop st sid)

/-- States reachable from `init` through orchestrator steps. -/
inductive Reachable (init : OrchState) : OrchState → Prop
  | refl : Reachable init init
  | tail {s s' : OrchState} : Reachable init s → Step s s' → Reachable init s'

/-- The mutual-exclusion invariant of the specification: no station both
holds an Auto DJ process handle and appears in a live connection. -/
def mutexOK (st : OrchState) : Bool :=
  st.autoDJProcesses.all (fun sid =>
    st.liveDJConnections.all (fun c => c.2.1 != sid))

/-- Lowest port of the stream-port pool (`index.ts`). -/
def BASE_STREAM_PORT : Nat := 8001

/-- Highest port of the stream-port pool (`index.ts`). -/
def MAX_STREAM_PORT : Nat := 8100

/-- The scanned pool `[BASE_STREAM_PORT .. MAX_STREAM_PORT]` in ascending
order. -/
def portRange : List Nat :=
  (List.range (MAX_STREAM_PORT + 1 - BASE_STREAM_PORT)).map (BASE_STREAM_PORT + ·)

/-- `getNextAvailablePort` of `index.ts`: `used` is the set of
`stream_port` values held by existing stations; the loop returns the first
pool port with no lease, and throws when the pool is exhausted. -/
def getNextAvailablePort (used : List Nat) : Except String Nat :=
  match portRange.find? (fun p => !used.contains p) with
  | some p => Except.ok p
  | none => Except.error "No available ports for new station"

/-! ## Part B: the state reconciler (`src/unnamed/part_000`) -/

/-- Row of the `streams` table, restricted to the columns the reconciler
reads and writes. -/
structure StreamRow where
  id : String
  userId : String
  title : String
  streamKey : String
  status : String
  actualStart : Option Nat
  actualEnd : Option Nat
  recordingEnabled : Bool
deriving DecidableEq, Repr

/-- The value stored by `setStreamState` for a live stream. -/
structure StreamStateVal where
  id : String
  status : String
  startTime : Nat
  recordingEnabled : Bool
deriving DecidableEq, Repr

/-- One `publish(topic, payload)` call on the notification bus, with the
payload fields the reconciler sends. -/
inductive Note where
  | streamStart (streamId streamKey userId : String) (recordingEnabled : Bool)
  | recordingStart (streamId streamKey userId title : String)
  | recordingStop (streamId streamKey : String)
  | streamStop (streamId streamKey : String)
deriving DecidableEq, Repr

/-- The reconciler's state: the module-local `knownActiveStreams` set, the
`streams` table, and the per-key current-state records held in Redis. -/
structure ReconState where
  known : List String
  db : List StreamRow
  streamStates : List (String × StreamStateVal)
deriving DecidableEq, Repr

/-- Modelled from the spec: `setStreamState` lives in the `./redis` module,
which is absent from the sources; per the specification's `NowPlaying`
description it keeps a single current-value record per stream key,
overwritten on every transition and cleared (`null`) when the broadcast
ends. -/
def setStreamState (m : List (String × StreamStateVal)) (key : String)
    (v : Option StreamStateVal) : List (String × StreamStateVal) :=
  match v with
  | none => m.filter (fun p => p.1 != key)
  | some val => (m.filter (fun p => p.1 != key)) ++ [(key, val)]

/-- Per-row effect of the `handleStreamStart` update statement
(`SET status = 'live', actual_start = COALESCE(actual_start, NOW())
WHERE stream_key = $1 AND status != 'live'`). -/
def hssRow (now : Nat) (key : String) (r : StreamRow) : StreamRow :=
  if r.streamKey == key && r.status != "live" then
    { r with status := "live", actualStart := some (r.actualStart.getD now) }
  else r

/-- `handleStreamStart` of `part_000`: conditionally update the row, and
when a row was updated store the stream state and publish `stream:start`
followed — only when recording is enabled — by `recording:start`. -/
def handleStreamStart (now : Nat) (key : String) (st : ReconState) :
    ReconState × List Note :=
  let returned :=
    (st.db.filter (fun r => r.streamKey == key && r.status != "live")).map
      (hssRow now key)
  let db1 := st.db.map (hssRow now key)
  match returned with
  | [] => ({ st with db := db1 }, [])
  | stream :: _ =>
    ({ st with
        db := db1,
        streamStates := setStreamState st.streamStates key
          (some { id := stream.id, status := "live", startTime := now,
                  recordingEnabled := stream.recordingEnabled }) },
     Note.streamStart stream.id key stream.userId stream.recordingEnabled ::
       (if stream.recordingEnabled then
          [Note.recordingStart stream.id key stream.userId stream.title]
        else []))

/-- Per-row effect of the `handleStreamEnd` update statement
(`SET status = 'ended', actual_end = NOW()
WHERE stream_key = $1 AND status = 'live'`). -/
def hseRow (now : Nat) (key : String) (r : StreamRow) : StreamRow :=
  if r.streamKey == key && r.status == "live" then
    { r with status := "ended", actualEnd := some now }
  else r

/-- `handleStreamEnd` of `part_000`: conditionally update the row, and when
a row was updated publish `recording:stop`, clear the stream state, and
publish `stream:stop` — in that order, with no test of
`recording_enabled`. -/
def handleStreamEnd (now : Nat) (key : String) (st : ReconState) :
    ReconState × List Note :=
  let returned :=
    (st.db.filter (fun r => r.streamKey == key && r.status == "live")).map
      (hseRow now key)
  let db1 := st.db.map (hseRow now key)
  match returned with
  | [] => ({ st with db := db1 }, [])
  | stream :: _ =>
    ({ st with db := db1, streamStates := setStreamState st.streamStates key none },
     [Note.recordingStop stream.id key, Note.streamStop stream.id key])

/-- One stream object of the SRS `/api/v1/streams/` reply, restricted to
the fields read: `name` and `publish?.active`. -/
structure SrsStream where
  name : String
  publishActive : Bool
deriving DecidableEq, Repr

/-- Outcome of one origin-registry fetch: a thrown network error, a non-OK
HTTP response, or a parsed body carrying `code` and `streams`. -/
inductive OriginResult where
  | fetchError
  | httpNotOk
  | response (code : Int) (streams : List SrsStream)
deriving DecidableEq, Repr

/-- JavaScript `s.replace(target, '')` for a string target: remove the
first occurrence of the substring. -/
def removeFirstSub (target : List Char) : List Char → List Char
  | [] => []
  | c :: cs =>
    if target.isPrefixOf (c :: cs) then (c :: cs).drop target.length
    else c :: removeFirstSub target cs

/-- `s.name.replace(".m3u8", "")` applied to each reported stream name. -/
def stripM3u8 (s : String) : String :=
  ⟨removeFirstSub ".m3u8".toList s.toList⟩

/-- Insertion-ordered deduplication: `new Set(list)` iterated in
first-insertion order. -/
def dedupKeys (seen : List String) : List String → List String
  | [] => []
  | k :: ks =>
    if seen.contains k then dedupKeys seen ks
    else k :: dedupKeys (k :: seen) ks

/-- `activeStreamKeys` of `syncStreamStatus`: the names of the streams with
`publish?.active`, with `.m3u8` stripped, as a set. -/
def activeKeysOf (streams : List SrsStream) : List String :=
  dedupKeys [] ((streams.filter (fun s => s.publishActive)).map
    (fun s => stripM3u8 s.name))

/-- First loop of `syncStreamStatus`: for each active key not yet known,
run `handleStreamStart` and then add the key to the known set. -/
def syncLoopStart (now : Nat) (keys : List String) (st : ReconState) :
    ReconState × List Note :=
  match keys with
  | [] => (st, [])
  | k :: ks =>
    if st.known.contains k then syncLoopStart now ks st
    else
      let p := handleStreamStart now k st
      let st1 := { p.1 with known := p.1.known ++ [k] }
      let q := syncLoopStart now ks st1
      (q.1, p.2 ++ q.2)

/-- Second loop of `syncStreamStatus`: for each known key (iterated over
the set as it stood when the loop began) not reported active, run
`handleStreamEnd` and then delete the key from the known set. -/
def syncLoopEnd (now : Nat) (activeKeys iter : List String) (st : ReconState) :
    ReconState × List Note :=
  match iter with
  | [] => (st, [])
  | k :: ks =>
    if activeKeys.contains k then syncLoopEnd now activeKeys ks st
    else
      let p := handleStreamEnd now k st
      let st1 := { p.1 with known := p.1.known.erase k }
      let q := syncLoopEnd now activeKeys ks st1
      (q.1, p.2 ++ q.2)

/-- `syncStreamStatus` of `part_000`: a fetch error, a non-OK response, or
a non-zero reply code returns with nothing changed; otherwise diff the
active key set against the known set with the two loops. -/
def syncStreamStatus (now : Nat) (origin : OriginResult) (st : ReconState) :
    ReconState × List Note :=
  match origin with
  | OriginResult.fetchError => (st, [])
  | OriginResult.httpNotOk => (st, [])
  | OriginResult.response code streams =>
    if code ≠ 0 then (st, [])
    else
      let keys := activeKeysOf streams
      let p := syncLoopStart now keys st
      let q := syncLoopEnd now keys p.1.known p.1
      (q.1, p.2 ++ q.2)

/-- A reconciliation cycle that fails outright: the fetch threw, the HTTP
response was not OK, or the origin's reply carried a non-zero error
code. -/
def originFailed : OriginResult → Prop
  | OriginResult.fetchError => True
  | OriginResult.httpNotOk => True
  | OriginResult.response code _ => code ≠ 0

/-- `POST /api/audio/icecast-auth` of `index.ts`: `db` is the outcome of
the station lookup (`Except.error` when the query threw), `globalPass` the
`ICECAST_SOURCE_PASSWORD` constant.  Returns the HTTP status and the
`icecast-auth-user` header value.  Every path answers 200; the header is
`"1"` exactly on a password match against the station found by the
de-slashed mount. -/
def icecastAuth (db : Except Unit (List Station)) (globalPass : String)
    (mount pass : Option String) : Nat × String :=
  match db with
  | Except.error _ => (200, "0")
  | Except.ok stations =>
    match stations.find? (fun s => s.mountPoint == mountKey mount) with
    | none => (200, "0")
    | some station =>
      if pass == some station.sourcePassword || pass == some globalPass then
        (200, "1")
      else (200, "0")

/-! ## Concrete fixtures used by witnesses and failing traces -/

/-- A station with Auto DJ enabled, two playlist tracks and mount
`radio1`. -/
def station1 : Station :=
  { id := "s1", mountPoint := "radio1", sourcePassword := "cmc_a1b2",
    autoDjEnabled := true, isActive := true, tracks := ["t1", "t2"] }

/-- An active DJ of `station1` with streaming permission. -/
def dj1 : DJRow :=
  { id := "d1", stationId := "s1", streamPassword := "djpass",
    isActive := true, canStream := true }

/-- Initial orchestrator state: one station, one DJ, empty registries. -/
def orch0 : OrchState :=
  { stations := [station1], djs := [dj1], autoDJProcesses := [],
    liveDJConnections := [], pendingRestarts := [], nowPlaying := [] }

/-- State after the live DJ authenticated on mount `/radio1`. -/
def orchLive : OrchState := (djAuth "gpass" orch0 "/radio1" "djpass").1

/-- State after the Auto DJ was started and a settings update then turned
`auto_dj_enabled` off while the process kept running. -/
def orchDisabledRunning : OrchState :=
  updateStation (startAutoDJ orch0 "s1") "s1" (some false) none

/-- State after connect, disconnect (which schedules the Auto DJ restart)
and reconnect within the debounce window: the live connection is back and
the restart is still pending. -/
def orchReconnected : OrchState :=
  (djAuth "gpass" (djDisconnect orchLive "/radio1") "/radio1" "djpass").1

/-- A scheduled stream row with key `k1` and recording disabled. -/
def reconRow1 : StreamRow :=
  { id := "i1", userId := "u1", title := "T1", streamKey := "k1",
    status := "scheduled", actualStart := none, actualEnd := none,
    recordingEnabled := false }

/-- Initial reconciler state holding only `reconRow1`. -/
def recon0 : ReconState := { known := [], db := [reconRow1], streamStates := [] }

/-- An origin reply reporting `k1` actively publishing. -/
def originResp : OriginResult :=
  OriginResult.response 0 [{ name := "k1.m3u8", publishActive := true }]

/-- A stream row with its actual-start already set. -/
def c6Row : StreamRow :=
  { id := "i2", userId := "u2", title := "T2", streamKey := "k2",
    status := "scheduled", actualStart := some 3, actualEnd := none,
    recordingEnabled := true }

/-- A live stream row with recording disabled. -/
def c7Row : StreamRow :=
  { id := "i1", userId := "u1", title := "T1", streamKey := "k1",
    status := "live", actualStart := some 5, actualEnd := none,
    recordingEnabled := false }

/-- Reconciler state in which `k1` is known active and live with recording
disabled. -/
def c7St : ReconState :=
  { known := ["k1"], db := [c7Row],
    streamStates := [("k1", { id := "i1", status := "live", startTime := 5,
                              recordingEnabled := false })] }

/-! ## Helper lemmas -/

/-- `List.contains` agrees with membership. -/
theorem list_contains_iff_mem {α : Type} [BEq α] [LawfulBEq α] {l : List α}
    {a : α} : l.contains a = true ↔ a ∈ l :=
  List.contains_iff_exists_mem_beq.trans (by simp)

/-- The pool list is strictly ascending. -/
theorem portRange_pairwise : portRange.Pairwise (· < ·) := by
  unfold portRange
  exact (List.pairwise_lt_range _).map _ (fun a b h => Nat.add_lt_add_left h _)

/-- Membership in the pool is exactly the interval bound. -/
theorem mem_portRange {p : Nat} :
    p ∈ portRange ↔ BASE_STREAM_PORT ≤ p ∧ p ≤ MAX_STREAM_PORT := by
  unfold portRange BASE_STREAM_PORT MAX_STREAM_PORT
  simp only [List.mem_map, List.mem_range]
  constructor
  · rintro ⟨a, ha, rfl⟩; omega
  · rintro ⟨h1, h2⟩; exact ⟨p - 8001, by omega, by omega⟩

/-- On a strictly ascending list, `find?` fails on every element below the
one it returns. -/
theorem find?_pairwise_min {p : Nat → Bool} {l : List Nat}
    (hl : l.Pairwise (· < ·)) {a : Nat} (h : l.find? p = some a) :
    ∀ b ∈ l, b < a → p b = false := by
  induction l with
  | nil => simp at h
  | cons x xs ih =>
    intro b hb hba
    by_cases hpx : p x = true
    · rw [List.find?_cons_of_pos _ hpx] at h
      cases h
      rcases List.mem_cons.mp hb with rfl | hbxs
      · omega
      · exact absurd (List.rel_of_pairwise_cons hl hbxs) (by omega)
    · rw [List.find?_cons_of_neg _ (by simpa using hpx)] at h
      rcases List.mem_cons.mp hb with rfl | hbxs
      · simpa using hpx
      · exact ih hl.of_cons h b hbxs hba

/-! ## Claim theorems -/

/-- C4: `getNextAvailablePort` returns the smallest port of the pool
`[BASE_STREAM_PORT, MAX_STREAM_PORT]` held by no existing lease (so the
returned port is fresh, keeping leases unique), and when every pool port is
leased it fails with the pool-exhausted error instead of returning a
port. -/
theorem c4_port_allocation (used : List Nat) :
    (∀ p, p ∈ portRange ↔ BASE_STREAM_PORT ≤ p ∧ p ≤ MAX_STREAM_PORT) ∧
    (∀ p, getNextAvailablePort used = Except.ok p →
      p ∈ portRange ∧ p ∉ used ∧ ∀ q ∈ portRange, q < p → q ∈ used) ∧
    ((∀ q ∈ portRange, q ∈ used) →
      getNextAvailablePort used = Except.error "No available ports for new station") := by
  refine ⟨fun p => mem_portRange, fun p hp => ?_, fun hall => ?_⟩
  · have hfind : portRange.find? (fun q => !used.contains q) = some p := by
      unfold getNextAvailablePort at hp
      cases hf : portRange.find? (fun q => !used.contains q) with
      | none => rw [hf] at hp; cases hp
      | some x => rw [hf] at hp; cases hp; exact rfl
    refine ⟨List.mem_of_find?_eq_some hfind, ?_, ?_⟩
    · have := List.find?_some hfind
      intro hmem
      rw [list_contains_iff_mem.mpr hmem] at this
      simp at this
    · intro q hq hqp
      have := find?_pairwise_min portRange_pairwise hfind q hq hqp
      simp only [Bool.not_eq_false'] at this
      exact list_contains_iff_mem.mp this
  · unfold getNextAvailablePort
    have hnone : portRange.find? (fun q => !used.contains q) = none := by
      rw [List.find?_eq_none]
      intro x hx
      simpa using hall x hx
    rw [hnone]

/-- Witness for C4: with only 8001 leased, 8002 is returned and is the
least free pool port; with the whole pool leased, allocation reports
exhaustion. -/
theorem c4_port_allocation_witness :
    (8002 ∈ portRange ∧ 8002 ∉ [8001] ∧ ∀ q ∈ portRange, q < 8002 → q ∈ [8001]) ∧
    getNextAvailablePort portRange =
      Except.error "No available ports for new station" :=
  ⟨(c4_port_allocation [8001]).2.1 8002 (by rfl),
   (c4_port_allocation portRange).2.2 (fun q hq => hq)⟩

/-- C1 fails on the code: from the reachable state in which a live DJ is
connected to station `s1`, the orchestrator operation `startAutoDJ s1`
(reached through the start endpoint, the startup pass, or a fired restart
timer) registers an Auto DJ process handle while the live connection is
still present, so the mutual-exclusion invariant is not preserved. -/
theorem c1_mutual_exclusion_violated :
    ∃ s : OrchState, Reachable orch0 s ∧ mutexOK s = true ∧
      Step s (startAutoDJ s "s1") ∧ mutexOK (startAutoDJ s "s1") = false :=
  ⟨orchLive,
   Reachable.tail Reachable.refl (Step.connect orch0 "gpass" "/radio1" "djpass"),
   by decide,
   Step.start orchLive "s1",
   by decide⟩

/-- C2 fails on the code: with station `s1`'s Auto DJ process running but
`auto_dj_enabled` meanwhile turned off by a settings update, an accepted
live DJ connection leaves the process handle registered (the handler
guards `stopAutoDJ` on the flag, not on the process) while the live
connection is recorded. -/
theorem c2_preemption_violated :
    orchDisabledRunning.autoDJProcesses.contains "s1" = true ∧
    (djAuth "gpass" orchDisabledRunning "/radio1" "djpass").2 = true ∧
    (djAuth "gpass" orchDisabledRunning "/radio1" "djpass").1.autoDJProcesses.contains "s1" = true ∧
    (djAuth "gpass" orchDisabledRunning "/radio1" "djpass").1.liveDJConnections.contains ("/radio1", "s1", "d1") = true := by
  decide

/-- C3 fails on the code: in the state reached by connect, disconnect
(scheduling the Auto DJ restart) and reconnect within the debounce window,
the pending restart fires `startAutoDJ`, which re-checks only
`auto_dj_enabled` and never the live-connection registry, so it starts the
Auto DJ process instead of aborting although a live connection for the
station exists. -/
theorem c3_restart_does_not_abort :
    orchReconnected.pendingRestarts.contains "s1" = true ∧
    orchReconnected.liveDJConnections.contains ("/radio1", "s1", "d1") = true ∧
    (fireRestart orchReconnected "s1").autoDJProcesses.contains "s1" = true ∧
    (fireRestart orchReconnected "s1").liveDJConnections.contains ("/radio1", "s1", "d1") = true := by
  decide

/-- C9: a source connection presenting the station-wide fallback credential
(the global source password), distinct from every DJ's personal credential,
is accepted by both authentication endpoints and is treated as the Auto
DJ's own connection: the DJ handler returns 200 with the orchestrator state
unchanged — no `stopAutoDJ`, no recorded live connection. -/
theorem c9_fallback_credential (globalPass mount pass : String) (st : OrchState)
    (s0 : Station)
    (hpass : pass = globalPass)
    (hmount : st.stations.find? (fun s => s.mountPoint == mountKey (some mount)) = some s0)
    (hnodj : ∀ d ∈ st.djs, d.streamPassword ≠ pass) :
    djAuth globalPass st mount pass = (st, true) ∧
    icecastAuth (Except.ok st.stations) globalPass (some mount) (some pass) = (200, "1") := by
  constructor
  · have hq : djAuthQuery st mount pass = none := by
      unfold djAuthQuery
      rw [List.head?_eq_none_iff, List.filterMap_eq_nil_iff]
      intro d hd
      cases hfind : st.stations.find? (fun s => s.id == d.stationId) with
      | none => simp [hfind]
      | some s =>
        have hne : (d.streamPassword == pass) = false := by
          simpa using hnodj d hd
        simp [hfind, hne]
    unfold djAuth
    rw [hq]
    simp [hpass]
  · simp only [icecastAuth]
    rw [hmount]
    simp [hpass]

/-- Witness for C9: on the concrete one-station state, the global source
password (matching no DJ credential) is accepted with no state change. -/
theorem c9_fallback_credential_witness :
    djAuth "gpass" orch0 "/radio1" "gpass" = (orch0, true) ∧
    icecastAuth (Except.ok orch0.stations) "gpass" (some "/radio1") (some "gpass") =
      (200, "1") :=
  c9_fallback_credential "gpass" "/radio1" "gpass" orch0 station1 rfl
    (by decide) (by decide)

/-- C10: the Icecast source-authentication endpoint always answers HTTP
200, and the `icecast-auth-user` header is `"1"` exactly when the lookup
succeeded, the de-slashed mount resolves to a station, and the presented
password equals that station's source password or the global source
password; it is `"0"` in every other case, including an unknown mount and
a failed lookup. -/
theorem c10_icecast_auth_decision (db : Except Unit (List Station))
    (globalPass : String) (mount pass : Option String) :
    (icecastAuth db globalPass mount pass).1 = 200 ∧
    ((icecastAuth db globalPass mount pass).2 = "1" ↔
      ∃ stations station, db = Except.ok stations ∧
        stations.find? (fun s => s.mountPoint == mountKey mount) = some station ∧
        (pass = some station.sourcePassword ∨ pass = some globalPass)) := by
  cases db with
  | error e =>
    refine ⟨rfl, ?_⟩
    constructor
    · intro h
      have h0 : ("0" : String) = "1" := h
      simp at h0
    · rintro ⟨stations', station', h1, -, -⟩
      exact Except.noConfusion h1
  | ok stations =>
    cases hfind : stations.find? (fun s => s.mountPoint == mountKey mount) with
    | none =>
      have hval : icecastAuth (Except.ok stations) globalPass mount pass = (200, "0") := by
        simp [icecastAuth, hfind]
      rw [hval]
      refine ⟨rfl, ?_⟩
      constructor
      · intro h; simp at h
      · rintro ⟨stations', station', h1, h2, -⟩
        injection h1 with h1
        subst h1
        rw [hfind] at h2
        exact Option.noConfusion h2
    | some station =>
      by_cases hcond : (pass == some station.sourcePassword || pass == some globalPass) = true
      · have hval : icecastAuth (Except.ok stations) globalPass mount pass = (200, "1") := by
          simp only [icecastAuth, hfind]
          rw [if_pos hcond]
        rw [hval]
        refine ⟨rfl, ?_⟩
        constructor
        · intro _
          refine ⟨stations, station, rfl, hfind, ?_⟩
          simpa using hcond
        · intro _; rfl
      · have hval : icecastAuth (Except.ok stations) globalPass mount pass = (200, "0") := by
          simp only [icecastAuth, hfind]
          rw [if_neg hcond]
        rw [hval]
        refine ⟨rfl, ?_⟩
        constructor
        · intro h; simp at h
        · rintro ⟨stations', station', h1, h2, h3⟩
          injection h1 with h1
          subst h1
          rw [hfind] at h2
          injection h2 with h2
          subst h2
          apply absurd ?_ hcond
          rcases h3 with h3 | h3 <;> simp [h3]

/-- Witness for C10: evaluation of the decision on a known mount with the
global password. -/
theorem c10_icecast_auth_decision_witness :
    (icecastAuth (Except.ok [station1]) "gpass" (some "/radio1") (some "gpass")).1 = 200 ∧
    ((icecastAuth (Except.ok [station1]) "gpass" (some "/radio1") (some "gpass")).2 = "1" ↔
      ∃ stations station,
        (Except.ok [station1] : Except Unit (List Station)) = Except.ok stations ∧
        stations.find? (fun s => s.mountPoint == mountKey (some "/radio1")) = some station ∧
        ((some "gpass" : Option String) = some station.sourcePassword ∨
          (some "gpass" : Option String) = some "gpass")) :=
  c10_icecast_auth_decision (Except.ok [station1]) "gpass" (some "/radio1") (some "gpass")

/-- `hseRow` never changes the row id. -/
theorem hseRow_id (now : Nat) (key : String) (r : StreamRow) :
    (hseRow now key r).id = r.id := by
  unfold hseRow
  split <;> rfl

/-- `head?` of a filtered list is `find?`. -/
theorem filter_head?_eq_find? {α : Type} (p : α → Bool) (l : List α) :
    (l.filter p).head? = l.find? p := by
  induction l with
  | nil => rfl
  | cons x xs ih =>
    by_cases hx : p x = true <;> simp [List.filter_cons, List.find?_cons, hx, ih]

/-- C6: on detection of a newly-active stream key, the matching row's
status becomes `live`; its actual-start timestamp is overwritten only when
it was previously unset (in which case it becomes the current time), and a
second detection of the same still-live row changes nothing — the
actual-start timestamp is never reset. -/
theorem c6_actual_start_set_once (now1 now2 : Nat) (key : String)
    (st : ReconState) (r : StreamRow) (hk : r.streamKey = key) :
    (handleStreamStart now1 key st).1.db = st.db.map (hssRow now1 key) ∧
    (hssRow now1 key r).status = "live" ∧
    (r.status ≠ "live" → r.actualStart = none →
      (hssRow now1 key r).actualStart = some now1) ∧
    (∀ t, r.actualStart = some t → (hssRow now1 key r).actualStart = some t) ∧
    hssRow now2 key (hssRow now1 key r) = hssRow now1 key r := by
  refine ⟨?_, ?_⟩
  · cases h : (st.db.filter (fun x => x.streamKey == key && x.status != "live")).map
        (hssRow now1 key) <;>
      simp [handleStreamStart, h]
  · by_cases hs : r.status = "live"
    · have e1 : hssRow now1 key r = r := by
        unfold hssRow
        rw [if_neg (by simp [hs])]
      refine ⟨by rw [e1]; exact hs, ?_, ?_, ?_⟩
      · intro hns _; exact absurd hs hns
      · intro t ht; rw [e1]; exact ht
      · rw [e1]
        unfold hssRow
        rw [if_neg (by simp [hs])]
    · have hguard : (r.streamKey == key && r.status != "live") = true := by
        simp [hk, hs]
      have e1 : hssRow now1 key r =
          { r with status := "live", actualStart := some (r.actualStart.getD now1) } := by
        unfold hssRow
        rw [if_pos hguard]
      refine ⟨by rw [e1], ?_, ?_, ?_⟩
      · intro _ hnone; rw [e1]; simp [hnone]
      · intro t ht; rw [e1]; simp [ht]
      · rw [e1]
        unfold hssRow
        rw [if_neg (by simp)]

/-- Witness for C6: a row whose actual-start is already 3 keeps it across a
first and a second detection. -/
theorem c6_actual_start_set_once_witness :
    hssRow 20 "k2" (hssRow 10 "k2" c6Row) = hssRow 10 "k2" c6Row ∧
    (hssRow 10 "k2" c6Row).actualStart = some 3 :=
  ⟨(c6_actual_start_set_once 10 20 "k2" { known := [], db := [c6Row], streamStates := [] }
      c6Row rfl).2.2.2.2,
   (c6_actual_start_set_once 10 20 "k2" { known := [], db := [c6Row], streamStates := [] }
      c6Row rfl).2.2.2.1 3 rfl⟩

/-- Counterexample to C7: `k1` is live with recording not configured
(`recording_enabled = false`), yet ending it publishes the
recording-stopped notification — the code emits it unconditionally, not
only when applicable. -/
theorem c7_counterexample :
    c7Row.recordingEnabled = false ∧
    (handleStreamEnd 7 "k1" c7St).2 =
      [Note.recordingStop "i1" "k1", Note.streamStop "i1" "k1"] := by
  decide

/-- C7 as amended: for a previously-active key whose persisted row is
live, `handleStreamEnd` marks the row ended with the actual-end timestamp
set, clears the stream's current-state record, and publishes
`recording:stop` unconditionally, strictly before `stream:stop`. -/
theorem c7_amended_end_transition (now : Nat) (key : String) (st : ReconState)
    (r : StreamRow)
    (hfind : st.db.find? (fun x => x.streamKey == key && x.status == "live") = some r) :
    handleStreamEnd now key st =
      ({ st with
          db := st.db.map (hseRow now key),
          streamStates := setStreamState st.streamStates key none },
       [Note.recordingStop r.id key, Note.streamStop r.id key]) ∧
    ∀ x ∈ st.db, x.streamKey = key → x.status = "live" →
      (hseRow now key x).status = "ended" ∧ (hseRow now key x).actualEnd = some now := by
  constructor
  · have hhead : (st.db.filter (fun x => x.streamKey == key && x.status == "live")).head? =
        some r := by
      rw [filter_head?_eq_find?]; exact hfind
    cases hfl : st.db.filter (fun x => x.streamKey == key && x.status == "live") with
    | nil => rw [hfl] at hhead; exact Option.noConfusion hhead
    | cons a rest =>
      rw [hfl] at hhead
      injection hhead with hhead
      subst hhead
      simp [handleStreamEnd, hfl, hseRow_id]
  · intro x _ hxk hxs
    have hguard : (x.streamKey == key && x.status == "live") = true := by
      simp [hxk, hxs]
    unfold hseRow
    rw [if_pos hguard]
    exact ⟨rfl, rfl⟩

/-- Witness for C7 as amended: evaluation of `handleStreamEnd` on the
concrete live row. -/
theorem c7_amended_end_transition_witness :
    handleStreamEnd 7 "k1" c7St =
      ({ c7St with
          db := c7St.db.map (hseRow 7 "k1"),
          streamStates := setStreamState c7St.streamStates "k1" none },
       [Note.recordingStop "i1" "k1", Note.streamStop "i1" "k1"]) :=
  (c7_amended_end_transition 7 "k1" c7St c7Row (by decide)).1

/-- C8: a reconciliation cycle that fails outright — unreachable origin,
non-OK HTTP response, or an error code in the reply — leaves the
known-active set, the database and the stream-state records exactly as
they were and emits no notification. -/
theorem c8_failed_cycle_no_change (now : Nat) (origin : OriginResult)
    (st : ReconState) (h : originFailed origin) :
    syncStreamStatus now origin st = (st, []) := by
  cases origin with
  | fetchError => rfl
  | httpNotOk => rfl
  | response code streams =>
    have hc : code ≠ 0 := h
    simp [syncStreamStatus, hc]

/-- Witness for C8: a cycle against an unreachable origin changes
nothing. -/
theorem c8_failed_cycle_no_change_witness :
    syncStreamStatus 3 OriginResult.fetchError c7St = (c7St, []) ∧
    syncStreamStatus 3 (OriginResult.response 1 []) c7St = (c7St, []) :=
  ⟨c8_failed_cycle_no_change 3 OriginResult.fetchError c7St trivial,
   c8_failed_cycle_no_change 3 (OriginResult.response 1 []) c7St
     (show (1 : Int) ≠ 0 by decide)⟩

/-- `handleStreamStart` never touches the known-active set. -/
theorem handleStreamStart_known (now : Nat) (k : String) (st : ReconState) :
    (handleStreamStart now k st).1.known = st.known := by
  cases h : (st.db.filter (fun r => r.streamKey == k && r.status != "live")).map
      (hssRow now k) <;>
    simp [handleStreamStart, h]

/-- `handleStreamEnd` never touches the known-active set. -/
theorem handleStreamEnd_known (now : Nat) (k : String) (st : ReconState) :
    (handleStreamEnd now k st).1.known = st.known := by
  cases h : (st.db.filter (fun r => r.streamKey == k && r.status == "live")).map
      (hseRow now k) <;>
    simp [handleStreamEnd, h]

/-- After the start loop, the known set holds exactly the old keys and the
processed keys. -/
theorem syncLoopStart_known_mem (now : Nat) (keys : List String)
    (st : ReconState) (x : String) :
    x ∈ (syncLoopStart now keys st).1.known ↔ x ∈ st.known ∨ x ∈ keys := by
  induction keys generalizing st with
  | nil => simp [syncLoopStart]
  | cons k ks ih =>
    by_cases hkm : k ∈ st.known
    · have hk : st.known.contains k = true := list_contains_iff_mem.mpr hkm
      rw [show syncLoopStart now (k :: ks) st = syncLoopStart now ks st from by
        simp [syncLoopStart, hk, hkm]]
      rw [ih]
      simp only [List.mem_cons]
      constructor
      · rintro (h | h)
        · exact Or.inl h
        · exact Or.inr (Or.inr h)
      · rintro (h | rfl | h)
        · exact Or.inl h
        · exact Or.inl hkm
        · exact Or.inr h
    · have hk : ¬st.known.contains k = true := fun hc => hkm (list_contains_iff_mem.mp hc)
      have hstep : (syncLoopStart now (k :: ks) st).1 =
          (syncLoopStart now ks
            { (handleStreamStart now k st).1 with
                known := (handleStreamStart now k st).1.known ++ [k] }).1 := by
        simp [syncLoopStart, hk, hkm]
      rw [hstep, ih]
      rw [handleStreamStart_known]
      simp only [List.mem_append, List.mem_singleton, List.mem_cons]
      tauto

/-- The start loop preserves freedom from duplicates of the known set. -/
theorem syncLoopStart_known_nodup (now : Nat) (keys : List String)
    (st : ReconState) (h : st.known.Nodup) :
    (syncLoopStart now keys st).1.known.Nodup := by
  induction keys generalizing st with
  | nil => simpa [syncLoopStart] using h
  | cons k ks ih =>
    by_cases hkm : k ∈ st.known
    · have hk : st.known.contains k = true := list_contains_iff_mem.mpr hkm
      rw [show syncLoopStart now (k :: ks) st = syncLoopStart now ks st from by
        simp [syncLoopStart, hk, hkm]]
      exact ih st h
    · have hk : ¬st.known.contains k = true := fun hc => hkm (list_contains_iff_mem.mp hc)
      have hstep : (syncLoopStart now (k :: ks) st).1 =
          (syncLoopStart now ks
            { (handleStreamStart now k st).1 with
                known := (handleStreamStart now k st).1.known ++ [k] }).1 := by
        simp [syncLoopStart, hk, hkm]
      rw [hstep]
      apply ih
      rw [handleStreamStart_known]
      simp [List.nodup_append, h, hkm]

/-- The start loop does nothing when every key is already known. -/
theorem syncLoopStart_noop (now : Nat) (keys : List String) (st : ReconState)
    (h : ∀ k ∈ keys, k ∈ st.known) :
    syncLoopStart now keys st = (st, []) := by
  induction keys with
  | nil => rfl
  | cons k ks ih =>
    have hkm : k ∈ st.known := h k (List.mem_cons_self k ks)
    have hk : st.known.contains k = true := list_contains_iff_mem.mpr hkm
    rw [show syncLoopStart now (k :: ks) st = syncLoopStart now ks st from by
      simp [syncLoopStart, hk, hkm]]
    exact ih (fun k2 hk2 => h k2 (List.mem_cons_of_mem k hk2))

/-- The end loop never removes a key that is reported active. -/
theorem syncLoopEnd_mem_of_active (now : Nat) (ak iter : List String)
    (st : ReconState) (x : String) (hx : x ∈ ak) :
    ∀ _ : x ∈ st.known, x ∈ (syncLoopEnd now ak iter st).1.known := by
  induction iter generalizing st with
  | nil => intro hmem; simpa [syncLoopEnd] using hmem
  | cons k ks ih =>
    intro hmem
    by_cases hkm : k ∈ ak
    · have hk : ak.contains k = true := list_contains_iff_mem.mpr hkm
      rw [show syncLoopEnd now ak (k :: ks) st = syncLoopEnd now ak ks st from by
        simp [syncLoopEnd, hk, hkm]]
      exact ih st hmem
    · have hk : ¬ak.contains k = true := fun hc => hkm (list_contains_iff_mem.mp hc)
      have hxk : x ≠ k := by
        rintro rfl; exact hkm hx
      have hstep : (syncLoopEnd now ak (k :: ks) st).1 =
          (syncLoopEnd now ak ks
            { (handleStreamEnd now k st).1 with
                known := (handleStreamEnd now k st).1.known.erase k }).1 := by
        simp [syncLoopEnd, hk, hkm]
      rw [hstep]
      apply ih
      rw [handleStreamEnd_known]
      exact (List.mem_erase_of_ne hxk).mpr hmem

/-- Every key surviving the end loop is reported active, provided the keys
not reported active were all up for processing. -/
theorem syncLoopEnd_subset_active (now : Nat) (ak iter : List String)
    (st : ReconState) (hnd : st.known.Nodup)
    (hcov : ∀ x ∈ st.known, x ∈ ak ∨ x ∈ iter) :
    ∀ x ∈ (syncLoopEnd now ak iter st).1.known, x ∈ ak := by
  induction iter generalizing st with
  | nil =>
    intro x hx
    simp only [syncLoopEnd] at hx
    rcases hcov x hx with h | h
    · exact h
    · exact absurd h (List.not_mem_nil x)
  | cons k ks ih =>
    by_cases hkm : k ∈ ak
    · have hk : ak.contains k = true := list_contains_iff_mem.mpr hkm
      rw [show syncLoopEnd now ak (k :: ks) st = syncLoopEnd now ak ks st from by
        simp [syncLoopEnd, hk, hkm]]
      refine ih st hnd ?_
      intro x hx
      rcases hcov x hx with h | h
      · exact Or.inl h
      · rcases List.mem_cons.mp h with rfl | h2
        · exact Or.inl hkm
        · exact Or.inr h2
    · have hk : ¬ak.contains k = true := fun hc => hkm (list_contains_iff_mem.mp hc)
      have hstep : (syncLoopEnd now ak (k :: ks) st).1 =
          (syncLoopEnd now ak ks
            { (handleStreamEnd now k st).1 with
                known := (handleStreamEnd now k st).1.known.erase k }).1 := by
        simp [syncLoopEnd, hk, hkm]
      rw [hstep]
      refine ih _ ?_ ?_
      · rw [handleStreamEnd_known]
        exact hnd.erase k
      · intro x hx
        rw [handleStreamEnd_known] at hx
        have hx2 := hnd.mem_erase_iff.mp hx
        rcases hcov x hx2.2 with h | h
        · exact Or.inl h
        · rcases List.mem_cons.mp h with rfl | h2
          · exact absurd rfl hx2.1
          · exact Or.inr h2

/-- The end loop does nothing when every iterated key is reported
active. -/
theorem syncLoopEnd_noop (now : Nat) (ak iter : List String) (st : ReconState)
    (h : ∀ k ∈ iter, k ∈ ak) :
    syncLoopEnd now ak iter st = (st, []) := by
  induction iter with
  | nil => rfl
  | cons k ks ih =>
    have hkm : k ∈ ak := h k (List.mem_cons_self k ks)
    have hk : ak.contains k = true := list_contains_iff_mem.mpr hkm
    rw [show syncLoopEnd now ak (k :: ks) st = syncLoopEnd now ak ks st from by
      simp [syncLoopEnd, hk, hkm]]
    exact ih (fun k2 hk2 => h k2 (List.mem_cons_of_mem k hk2))

/-- Unfolding of a successful reconciliation cycle into its two loops. -/
theorem syncStreamStatus_response (now : Nat) (streams : List SrsStream)
    (st : ReconState) :
    syncStreamStatus now (OriginResult.response 0 streams) st =
      ((syncLoopEnd now (activeKeysOf streams)
          (syncLoopStart now (activeKeysOf streams) st).1.known
          (syncLoopStart now (activeKeysOf streams) st).1).1,
       (syncLoopStart now (activeKeysOf streams) st).2 ++
         (syncLoopEnd now (activeKeysOf streams)
            (syncLoopStart now (activeKeysOf streams) st).1.known
            (syncLoopStart now (activeKeysOf streams) st).1).2) := by
  simp [syncStreamStatus]

/-- C5: re-running a reconciliation cycle against an unchanged origin
reply from the state the first run produced publishes no notification and
changes neither the known-active set nor any persisted record — the cycle
is idempotent on a steady state. -/
theorem c5_reconciliation_idempotent (now1 now2 : Nat) (origin : OriginResult)
    (st : ReconState) (hnd : st.known.Nodup) :
    syncStreamStatus now2 origin (syncStreamStatus now1 origin st).1 =
      ((syncStreamStatus now1 origin st).1, []) := by
  cases origin with
  | fetchError => rfl
  | httpNotOk => rfl
  | response code streams =>
    by_cases hc : code = 0
    · subst hc
      have hfirst : (syncStreamStatus now1 (OriginResult.response 0 streams) st).1 =
          (syncLoopEnd now1 (activeKeysOf streams)
            (syncLoopStart now1 (activeKeysOf streams) st).1.known
            (syncLoopStart now1 (activeKeysOf streams) st).1).1 := by
        rw [syncStreamStatus_response]
      have hsub1 : ∀ k ∈ activeKeysOf streams,
          k ∈ (syncLoopEnd now1 (activeKeysOf streams)
            (syncLoopStart now1 (activeKeysOf streams) st).1.known
            (syncLoopStart now1 (activeKeysOf streams) st).1).1.known := by
        intro k hkak
        exact syncLoopEnd_mem_of_active now1 (activeKeysOf streams)
          (syncLoopStart now1 (activeKeysOf streams) st).1.known
          (syncLoopStart now1 (activeKeysOf streams) st).1 k hkak
          ((syncLoopStart_known_mem now1 (activeKeysOf streams) st k).mpr
            (Or.inr hkak))
      have hsub2 : ∀ x ∈ (syncLoopEnd now1 (activeKeysOf streams)
            (syncLoopStart now1 (activeKeysOf streams) st).1.known
            (syncLoopStart now1 (activeKeysOf streams) st).1).1.known,
          x ∈ activeKeysOf streams := by
        refine syncLoopEnd_subset_active now1 (activeKeysOf streams)
          (syncLoopStart now1 (activeKeysOf streams) st).1.known
          (syncLoopStart now1 (activeKeysOf streams) st).1
          (syncLoopStart_known_nodup now1 (activeKeysOf streams) st hnd) ?_
        intro x hx
        exact Or.inr hx
      rw [hfirst]
      rw [syncStreamStatus_response]
      rw [syncLoopStart_noop now2 (activeKeysOf streams) _ hsub1]
      rw [syncLoopEnd_noop now2 (activeKeysOf streams) _ _ hsub2]
      rfl
    · have h1 : syncStreamStatus now1 (OriginResult.response code streams) st =
          (st, []) := by
        simp [syncStreamStatus, hc]
      rw [h1]
      simp [syncStreamStatus, hc]

/-- Witness for C5: the concrete one-stream cycle run twice. -/
theorem c5_reconciliation_idempotent_witness :
    syncStreamStatus 9 originResp (syncStreamStatus 5 originResp recon0).1 =
      ((syncStreamStatus 5 originResp recon0).1, []) :=
  c5_reconciliation_idempotent 5 9 originResp recon0 (by decide)
